import Mathlib

/-!
# Verification of the curatorAI terminal client (src/frontend/js/terminal.js)

A shallow embedding of the streaming response consumer and interaction state
machine of the `Terminal` class.  JavaScript strings are modelled as Lean
`String`; the DOM display log, the autocomplete list and the debounce-timer
machinery are modelled as explicit record fields; `JSON.parse` is treated as
an abstract parameter `parse : String → Option JRec` (the platform builtin is
not repository code), with theorems hypothesising only its values at the
concrete payloads involved.
-/

namespace CuratorAI

/-! ## JavaScript string primitives

`String.prototype.split('\n')`, `String.prototype.trim` and
`String.prototype.startsWith`, implemented by structural recursion over the
character list so that concrete computations reduce in the kernel. -/

/-- `chunk.split('\n')` on the character list: splitting on every newline,
keeping empty segments, as JavaScript does. -/
def splitNlChars : List Char → List (List Char)
  | [] => [[]]
  | c :: rest =>
    let r := splitNlChars rest
    if c = '\n' then [] :: r
    else
      match r with
      | [] => [[c]]
      | h :: t => (c :: h) :: t

/-- `chunk.split('\n')` as in `terminal.js` line 282. -/
def splitNl (s : String) : List String :=
  (splitNlChars s.data).map (fun cs => String.mk cs)

/-- Drop leading and trailing whitespace from a character list. -/
def trimChars (cs : List Char) : List Char :=
  ((cs.dropWhile Char.isWhitespace).reverse.dropWhile Char.isWhitespace).reverse

/-- JavaScript `s.trim()`. -/
def jsTrim (s : String) : String := String.mk (trimChars s.data)

/-! ## Stream decoding (terminal.js lines 277-306)

The structured record produced by `JSON.parse` of a `data: ` payload line.
`token := some ""` models a present-but-falsy token field (skipped by
`if (json.token)`); `done` models the truthiness of the `done` field. -/

/-- A parsed event-line record: the three fields `handleInput` inspects. -/
structure JRec where
  token : Option String
  images : Option (List String)
  done : Bool
deriving DecidableEq

/-- A decoded Stream Event, as in the spec's data model. -/
inductive SEvent
  | token (t : String)
  | images (urls : List String)
  | done
deriving DecidableEq

/-- The event marker prefix checked by `line.startsWith('data: ')`. -/
def dataMarker : String := "data: "

/-- The Stream Events contributed by one parsed record, in the order the three
`if` statements of lines 290-299 fire. -/
def recEvents (r : JRec) : List SEvent :=
  (match r.token with
   | some t => if t = "" then [] else [SEvent.token t]
   | none => []) ++
  (match r.images with
   | some us => [SEvent.images us]
   | none => []) ++
  (if r.done then [SEvent.done] else [])

/-- Processing of one `data: ` payload (`line.slice(6)`): skip whitespace-only
payloads, silently skip payloads `JSON.parse` rejects, otherwise emit the
record's events; the `Bool` is true when `json.done` was truthy, which breaks
out of the line loop. -/
def payloadEvents (parse : String → Option JRec) (payload : String) :
    List SEvent × Bool :=
  if jsTrim payload = "" then ([], false)
  else
    match parse payload with
    | none => ([], false)
    | some r => (recEvents r, r.done)

/-- Processing of one line of a chunk (lines 284-305): lines without the
`data: ` marker are ignored. -/
def lineEvents (parse : String → Option JRec) (line : String) :
    List SEvent × Bool :=
  if dataMarker.data.isPrefixOf line.data then
    payloadEvents parse (String.mk (line.data.drop 6))
  else ([], false)

/-- The `for (const line of lines)` loop: a truthy `done` breaks out of this
loop, dropping the remaining lines of the current chunk. -/
def linesEvents (parse : String → Option JRec) : List String → List SEvent
  | [] => []
  | l :: ls =>
    let p := lineEvents parse l
    if p.2 then p.1 else p.1 ++ linesEvents parse ls

/-- The `while (true)` read loop: each chunk is split on newlines and its lines
processed.  Note that the `break` on `done` only exits the inner line loop, so
processing continues with the next chunk; and no carry-over buffer joins a
trailing line fragment with the next chunk. -/
def chunksEvents (parse : String → Option JRec) : List String → List SEvent
  | [] => []
  | c :: cs => linesEvents parse (splitNl c) ++ chunksEvents parse cs

/-! ## Response aggregation (terminal.js lines 254, 275, 290-296, 310) -/

/-- The aggregate response: `fullResponse` and `imageUrls`. -/
structure Agg where
  fullResponse : String
  imageUrls : List String
deriving DecidableEq

/-- Folding one Stream Event into the aggregate: `fullResponse += json.token`,
`imageUrls = json.images`. -/
def aggStep (a : Agg) : SEvent → Agg
  | SEvent.token t => { a with fullResponse := a.fullResponse ++ t }
  | SEvent.images us => { a with imageUrls := us }
  | SEvent.done => a

/-- Aggregation of a whole event sequence starting from the empty aggregate. -/
def runAgg (evs : List SEvent) : Agg :=
  evs.foldl aggStep { fullResponse := "", imageUrls := [] }

/-- The fixed placeholder committed when no token text arrived
(`'응답이 없습니다.'`). -/
def noResponseText : String := "응답이 없습니다."

/-- The committed text: `fullResponse || '응답이 없습니다.'`. -/
def finalText (a : Agg) : String :=
  if a.fullResponse = "" then noResponseText else a.fullResponse

/-- The committed image list:
`imageUrls.length > 0 ? imageUrls : null`. -/
def finalImages (a : Agg) : Option (List String) :=
  if a.imageUrls.length > 0 then some a.imageUrls else none

/-- Spec-side description: the concatenation, in emission order, of the texts
of all Token events. -/
def tokensText : List SEvent → String
  | [] => ""
  | SEvent.token t :: es => t ++ tokensText es
  | SEvent.images _ :: es => tokensText es
  | SEvent.done :: es => tokensText es

/-- Spec-side description: the list carried by the last Images event, if any. -/
def lastImages : List SEvent → Option (List String)
  | [] => none
  | e :: es =>
    match lastImages es with
    | some us => some us
    | none =>
      match e with
      | SEvent.images us => some us
      | _ => none

/-! ## Display log and client state -/

/-- One display-log entry: a user line, a committed output line (text plus
optional image list), the in-progress typing line, or an error line. -/
inductive Entry
  | user (text : String)
  | output (text : String) (images : Option (List String))
  | typing (text : String)
  | error (text : String)
deriving DecidableEq

/-- Whether an entry is the in-progress typing line. -/
def isTyping : Entry → Bool
  | Entry.typing _ => true
  | _ => false

/-- `removeTypingLine()`: removes the (first) typing entry, if present. -/
def removeFirstTyping : List Entry → List Entry
  | [] => []
  | e :: es => if isTyping e then es else e :: removeFirstTyping es

/-- `updateTypingLine(text)`: rewrites the (first) typing entry's text. -/
def updateFirstTyping (t : String) : List Entry → List Entry
  | [] => []
  | e :: es =>
    if isTyping e then Entry.typing t :: es else e :: updateFirstTyping t es

/-- The value of `this.sessionId`: `null` initially, possibly `undefined`
after a create-session response whose body lacks a `session_id` field. -/
inductive SessVal
  | null
  | undef
  | str (v : String)
deriving DecidableEq

/-- How a value serializes as a JSON object field under `JSON.stringify`:
`undefined` fields are omitted from the object. -/
inductive JsonField
  | absent
  | nullv
  | strv (v : String)
deriving DecidableEq

/-- The `session_id` field of the chat request body for a given handle. -/
def sessionField : SessVal → JsonField
  | SessVal.null => JsonField.nullv
  | SessVal.undef => JsonField.absent
  | SessVal.str v => JsonField.strv v

/-- The full client state of the `Terminal` object, together with the
bookkeeping needed to observe dispatched requests and debounce timers:
`scheduled` records every `setTimeout` call as (timer id, query, delay ms),
`cancelled` every id passed to `clearTimeout`, `fired` every timer whose
callback ran; `lastRequest` records the body of the last dispatched chat
request; `fetchCount` counts dispatched chat requests. -/
structure TermState where
  log : List Entry
  inputValue : String
  isProcessing : Bool
  disabled : Bool
  focused : Bool
  sessionId : SessVal
  acShown : Bool
  acItems : List String
  selectedIndex : Int
  autocompleteTimeout : Option Nat
  nextTimerId : Nat
  scheduled : List (Nat × String × Nat)
  cancelled : List Nat
  fired : List Nat
  lastRequest : Option (String × JsonField)
  fetchCount : Nat
deriving DecidableEq

/-- The state built by the constructor (lines 2-12): null session handle, not
processing, no pending timer, no selection. -/
def initState : TermState :=
  { log := []
    inputValue := ""
    isProcessing := false
    disabled := false
    focused := true
    sessionId := SessVal.null
    acShown := false
    acItems := []
    selectedIndex := -1
    autocompleteTimeout := none
    nextTimerId := 0
    scheduled := []
    cancelled := []
    fired := []
    lastRequest := none
    fetchCount := 0 }

/-! ## Autocomplete (terminal.js lines 61-142) -/

/-- A suggestion item returned by the autocomplete endpoint. -/
structure Artwork where
  name : String
  size : Option String
  year : Option String
deriving DecidableEq

/-- `showAutocomplete(artworks)` (lines 89-119): rebuild the item list from the
artwork names, reset the selection, show the list. -/
def showAutocomplete (artworks : List Artwork) (s : TermState) : TermState :=
  { s with acItems := artworks.map (fun a => a.name)
           selectedIndex := -1
           acShown := true }

/-- `hideAutocomplete()` (lines 121-124): hide the list and reset the
selection.  The DOM items themselves are not cleared. -/
def hideAutocomplete (s : TermState) : TermState :=
  { s with acShown := false, selectedIndex := -1 }

/-- `navigateAutocomplete(direction)` (lines 126-142): no-op on an empty item
list, otherwise move the selection with circular wrapping. -/
def navigateAutocomplete (d : Int) (s : TermState) : TermState :=
  if s.acItems.length = 0 then s
  else
    let i1 := s.selectedIndex + d
    let i2 := if i1 < 0 then (s.acItems.length : Int) - 1 else i1
    let i3 := if i2 ≥ (s.acItems.length : Int) then 0 else i2
    { s with selectedIndex := i3 }

/-- `items[this.selectedIndex]` (line 24): a JavaScript indexed access that is
`undefined` for a negative or out-of-range index. -/
def acItemAt (s : TermState) (i : Int) : Option String :=
  if i < 0 then none else s.acItems[i.toNat]?

/-- The debounce delay passed to `setTimeout` (line 86). -/
def debounceDelayMs : Nat := 300

/-- `handleAutocomplete()` (lines 61-87): on a query whose trimmed length is
under 1, hide the list and return — note the pending timer is NOT cancelled on
this path; otherwise cancel the stored timer and schedule a new fetch after
the fixed delay. -/
def handleAutocomplete (s : TermState) : TermState :=
  let query := jsTrim s.inputValue
  if query.length < 1 then hideAutocomplete s
  else
    let s1 :=
      match s.autocompleteTimeout with
      | some i => { s with cancelled := i :: s.cancelled }
      | none => s
    let id := s1.nextTimerId
    { s1 with scheduled := s1.scheduled ++ [(id, query, debounceDelayMs)]
              autocompleteTimeout := some id
              nextTimerId := id + 1 }

/-- Outcome of an autocomplete fetch: a parsed `artworks` list, or an
exception/absent field. -/
inductive FetchRes
  | ok (artworks : List Artwork)
  | fail
deriving DecidableEq

/-- The body of the debounce-timer callback (lines 72-86): show the list on a
non-empty result, hide it otherwise, and hide it when the fetch throws. -/
def timerBody (s : TermState) (r : FetchRes) : TermState :=
  match r with
  | FetchRes.ok artworks =>
    if artworks.length > 0 then showAutocomplete artworks s
    else hideAutocomplete s
  | FetchRes.fail => hideAutocomplete s

/-- Whether timer `i` is still pending: it was scheduled and neither cancelled
nor already run. -/
def fireable (s : TermState) (i : Nat) : Bool :=
  s.scheduled.any (fun e => e.1 == i) &&
  !(s.cancelled.contains i) && !(s.fired.contains i)

/-- Environment events driving the autocomplete subsystem: the `input` event
(which updates the field value before the listener runs), and the expiry of a
pending debounce timer with its fetch result. -/
inductive ACEvent
  | inputChanged (v : String)
  | fire (id : Nat) (r : FetchRes)

/-- One environment step: an `input` event runs `handleAutocomplete`; a timer
expiry runs the callback only if the timer is still pending. -/
def stepAC (s : TermState) : ACEvent → TermState
  | ACEvent.inputChanged v => handleAutocomplete { s with inputValue := v }
  | ACEvent.fire id r =>
    if fireable s id then timerBody { s with fired := id :: s.fired } r
    else s

/-- Running a sequence of environment events. -/
def runAC (s : TermState) : List ACEvent → TermState
  | [] => s
  | e :: es => runAC (stepAC s e) es

/-! ## Session creation (terminal.js lines 144-154) -/

/-- Outcome of the create-session request as observable by the client:
a network failure; or a response (with its `ok` flag) whose body either fails
`response.json()` (`none`) or parses with a `session_id` field value
(`some (some v)`) or without the field (`some none`). -/
inductive SessionOutcome
  | netError
  | response (ok : Bool) (body : Option (Option String))
deriving DecidableEq

/-- `createSession()`: the returned `Bool` is true when the `catch` block ran
(a generic error was logged).  The code never consults `response.ok`. -/
def createSession (s : TermState) (o : SessionOutcome) : TermState × Bool :=
  match o with
  | SessionOutcome.netError => (s, true)
  | SessionOutcome.response _ body =>
    match body with
    | none => (s, true)
    | some sid =>
      ({ s with sessionId :=
          match sid with
          | none => SessVal.undef
          | some v => SessVal.str v }, false)

/-! ## Submission (terminal.js lines 240-321) -/

/-- Outcome of the chat request as observable by the client: a network failure
with its message, a non-success HTTP status, or a stream of text chunks with
an optional read failure after them. -/
inductive ChatOutcome
  | netError (msg : String)
  | httpError (status : Nat)
  | stream (chunks : List String) (readErr : Option String)
deriving DecidableEq

/-- The prefix of the error display line (`'오류가 발생했습니다: '`). -/
def errLinePrefix : String := "오류가 발생했습니다: "

/-- The failure description reaching the `catch` block, if the outcome is a
failure. -/
def failDesc : ChatOutcome → Option String
  | ChatOutcome.netError m => some m
  | ChatOutcome.httpError st => some ("HTTP error! status: " ++ toString st)
  | ChatOutcome.stream _ readErr => readErr

/-- The `catch` block (lines 312-315): remove the typing line and append one
error entry carrying the failure description. -/
def catchPath (s : TermState) (msg : String) : TermState :=
  let s1 := { s with log := removeFirstTyping s.log }
  { s1 with log := s1.log ++ [Entry.error (errLinePrefix ++ msg)] }

/-- The committed display entry built at line 310 from the final aggregate. -/
def commitEntry (a : Agg) : Entry :=
  Entry.output (finalText a) (finalImages a)

/-- `handleInput()` (lines 240-321): guard on empty message or active
Submission Lock; append the user entry, clear the input, take the lock,
disable the input, open the typing entry, dispatch the request; fold the
stream through the decoder/aggregator; on success commit the final entry, on
any failure run the catch path; finally release the lock, re-enable and
refocus the input. -/
def handleInput (parse : String → Option JRec) (s : TermState)
    (o : ChatOutcome) : TermState :=
  let message := jsTrim s.inputValue
  if message = "" ∨ s.isProcessing = true then s
  else
    let s1 := { s with log := s.log ++ [Entry.user message]
                       inputValue := ""
                       isProcessing := true
                       disabled := true }
    let s2 := { s1 with log := s1.log ++ [Entry.typing ""] }
    let s3 := { s2 with lastRequest := some (message, sessionField s.sessionId)
                        fetchCount := s2.fetchCount + 1 }
    let s4 :=
      match o with
      | ChatOutcome.netError m => catchPath s3 m
      | ChatOutcome.httpError st =>
        catchPath s3 ("HTTP error! status: " ++ toString st)
      | ChatOutcome.stream chunks readErr =>
        let a := runAgg (chunksEvents parse chunks)
        let s3x := { s3 with log := updateFirstTyping a.fullResponse s3.log }
        match readErr with
        | some m => catchPath s3x m
        | none =>
          let s5 := { s3x with log := removeFirstTyping s3x.log }
          { s5 with log := s5.log ++ [commitEntry a] }
    { s4 with isProcessing := false, disabled := false, focused := true }

/-- The Enter-key branch of the keypress listener (lines 20-32): ignored while
processing; with the suggestion list shown, a valid selection is copied into
the input, the list hidden, and `handleInput` invoked; an invalid selection
does nothing; with the list hidden, `handleInput` is invoked directly. -/
def enterKey (parse : String → Option JRec) (s : TermState)
    (o : ChatOutcome) : TermState :=
  if s.isProcessing then s
  else if s.acShown then
    match acItemAt s s.selectedIndex with
    | some name =>
      handleInput parse (hideAutocomplete { s with inputValue := name }) o
    | none => s
  else handleInput parse s o

/-! ## Autocomplete operations and invariants -/

/-- The four Autocomplete Controller operations of the spec: showing
suggestions, hiding, navigating, accepting (the Enter keypress). -/
inductive ACOp
  | showItems (artworks : List Artwork)
  | hide
  | navigate (d : Int)
  | accept (o : ChatOutcome)

/-- Applying one Autocomplete Controller operation. -/
def applyACOp (parse : String → Option JRec) (s : TermState) :
    ACOp → TermState
  | ACOp.showItems artworks => showAutocomplete artworks s
  | ACOp.hide => hideAutocomplete s
  | ACOp.navigate d => navigateAutocomplete d s
  | ACOp.accept o => enterKey parse s o

/-- The selection invariant: `selectedIndex` lies in `[-1, items.length-1]`. -/
def acInvariant (s : TermState) : Prop :=
  -1 ≤ s.selectedIndex ∧ s.selectedIndex < (s.acItems.length : Int)

/-- The debounce-timer invariant: every scheduled fetch carries the fixed
300 ms delay; timer ids are fresh; every scheduled timer other than the one
stored in `autocompleteTimeout` has been cancelled or has fired; and the
stored timer is the most recently scheduled one. -/
def acTimerInv (s : TermState) : Prop :=
  (∀ e ∈ s.scheduled, e.2.2 = debounceDelayMs) ∧
  (∀ e ∈ s.scheduled, e.1 < s.nextTimerId) ∧
  (∀ i ∈ s.cancelled, i < s.nextTimerId) ∧
  (∀ i ∈ s.fired, i < s.nextTimerId) ∧
  (∀ e ∈ s.scheduled,
    e.1 ∈ s.cancelled ∨ e.1 ∈ s.fired ∨ s.autocompleteTimeout = some e.1) ∧
  (∀ i, s.autocompleteTimeout = some i →
    i < s.nextTimerId ∧ s.scheduled.getLast?.map (fun e => e.1) = some i)

/-! ## Concrete payloads used in the counterexamples -/

/-- First chunk of the spec's boundary example: `data: {"tok`. -/
def chunkA : String := "data: \x7b\"tok"

/-- Second chunk of the spec's boundary example: `en":"Hi"}` + newline. -/
def chunkB : String := "en\":\"Hi\"\x7d\n"

/-- The same bytes delivered as one chunk: `data: {"token":"Hi"}` + newline. -/
def wholeChunk : String := "data: \x7b\"token\":\"Hi\"\x7d\n"

/-- The payload of the truncated first chunk: `{"tok`. -/
def payloadA : String := "\x7b\"tok"

/-- The whole-line payload: `{"token":"Hi"}`. -/
def payloadHi : String := "\x7b\"token\":\"Hi\"\x7d"

/-- A done-record payload: `{"done": true}`. -/
def payloadDone : String := "\x7b\"done\": true\x7d"

/-- A token-record payload: `{"token":"X"}`. -/
def payloadX : String := "\x7b\"token\":\"X\"\x7d"

/-- A chunk holding only the done record. -/
def chunkDone : String := "data: \x7b\"done\": true\x7d\n"

/-- A chunk holding only the `X` token record. -/
def chunkX : String := "data: \x7b\"token\":\"X\"\x7d\n"

/-- Both records in a single chunk, done first. -/
def chunkDoneThenX : String :=
  "data: \x7b\"done\": true\x7d\ndata: \x7b\"token\":\"X\"\x7d\n"

/-- A concrete stand-in for `JSON.parse` agreeing with it on the payloads
above; used to witness the parse-parametric theorems. -/
def parseStub : String → Option JRec := fun s =>
  if s = payloadHi then some { token := some "Hi", images := none, done := false }
  else if s = payloadDone then some { token := none, images := none, done := true }
  else if s = payloadX then some { token := some "X", images := none, done := false }
  else none

/-! ## Helper lemmas -/

theorem lineEvents_marker (parse : String → Option JRec) (line payload : String)
    (hpre : dataMarker.data.isPrefixOf line.data = true)
    (hpay : String.mk (line.data.drop 6) = payload) :
    lineEvents parse line = payloadEvents parse payload := by
  unfold lineEvents
  rw [if_pos hpre, hpay]

theorem lineEvents_no_marker (parse : String → Option JRec) (line : String)
    (h : dataMarker.data.isPrefixOf line.data = false) :
    lineEvents parse line = ([], false) := by
  unfold lineEvents
  rw [h]
  simp

theorem payloadEvents_some (parse : String → Option JRec) (p : String) (r : JRec)
    (hne : ¬ jsTrim p = "") (h : parse p = some r) :
    payloadEvents parse p = (recEvents r, r.done) := by
  unfold payloadEvents
  rw [if_neg hne, h]

theorem payloadEvents_none (parse : String → Option JRec) (p : String)
    (hne : ¬ jsTrim p = "") (h : parse p = none) :
    payloadEvents parse p = ([], false) := by
  unfold payloadEvents
  rw [if_neg hne, h]

/-! ## C1 and C2: stream decoding across chunk boundaries -/

/-- C1: the claim asserts chunk-boundary invariance: splitting a well-formed
stream into chunks must yield the same Stream Event sequence, and the
two-chunk delivery of `data: {"tok` / `en":"Hi"}` + newline must decode to
exactly one Token("Hi") event.  The code has no Decoder Buffer: each chunk is
split on newlines in isolation, so the same bytes decode to one Token event
when delivered whole but to NO event when split inside the line — the first
fragment fails to parse and is silently skipped and the second lacks the
`data: ` marker.  The theorem holds for every parse function that agrees with
`JSON.parse` on the two payloads involved. -/
theorem C1_split_inside_line_drops_event (parse : String → Option JRec)
    (hA : parse payloadA = none)
    (hHi : parse payloadHi
      = some { token := some "Hi", images := none, done := false }) :
    chunksEvents parse [wholeChunk] = [SEvent.token "Hi"]
    ∧ chunksEvents parse [chunkA, chunkB] = [] := by
  have hsW : splitNl wholeChunk = ["data: \x7b\"token\":\"Hi\"\x7d", ""] := by
    decide
  have hsA : splitNl chunkA = ["data: \x7b\"tok"] := by decide
  have hsB : splitNl chunkB = ["en\":\"Hi\"\x7d", ""] := by decide
  have l1 : lineEvents parse "data: \x7b\"token\":\"Hi\"\x7d"
      = payloadEvents parse payloadHi :=
    lineEvents_marker parse _ _ (by decide) (by decide)
  have l2 : lineEvents parse "" = ([], false) :=
    lineEvents_no_marker parse _ (by decide)
  have l3 : lineEvents parse "data: \x7b\"tok" = payloadEvents parse payloadA :=
    lineEvents_marker parse _ _ (by decide) (by decide)
  have l4 : lineEvents parse "en\":\"Hi\"\x7d" = ([], false) :=
    lineEvents_no_marker parse _ (by decide)
  have p1 := payloadEvents_some parse payloadHi _ (by decide) hHi
  have p2 := payloadEvents_none parse payloadA (by decide) hA
  constructor
  · simp [chunksEvents, hsW, linesEvents, l1, l2, p1, recEvents]
  · simp [chunksEvents, hsA, hsB, linesEvents, l2, l3, l4, p2]

/-- Witness for C1 at a concrete parse function agreeing with `JSON.parse`
on the involved payloads. -/
theorem C1_witness :
    chunksEvents parseStub [wholeChunk] = [SEvent.token "Hi"]
    ∧ chunksEvents parseStub [chunkA, chunkB] = [] :=
  C1_split_inside_line_drops_event parseStub (by decide) (by decide)

/-- C2: the claim asserts that a record with a truthy `done` field ends the
event sequence and no later chunk is read or processed.  The `break` at line
298 only exits the inner `for` loop over the current chunk's lines: the outer
`while` loop keeps reading, so events of later chunks are still processed.
With a done record in the first chunk and a token record in the second, the
code yields `[done, token "X"]`; only a record in the SAME chunk after the
done record is skipped (second conjunct). -/
theorem C2_done_only_breaks_current_chunk (parse : String → Option JRec)
    (hD : parse payloadDone
      = some { token := none, images := none, done := true })
    (hX : parse payloadX
      = some { token := some "X", images := none, done := false }) :
    chunksEvents parse [chunkDone, chunkX] = [SEvent.done, SEvent.token "X"]
    ∧ chunksEvents parse [chunkDoneThenX] = [SEvent.done] := by
  have hsD : splitNl chunkDone = ["data: \x7b\"done\": true\x7d", ""] := by
    decide
  have hsX : splitNl chunkX = ["data: \x7b\"token\":\"X\"\x7d", ""] := by
    decide
  have hsDX : splitNl chunkDoneThenX
      = ["data: \x7b\"done\": true\x7d", "data: \x7b\"token\":\"X\"\x7d", ""] := by
    decide
  have l1 : lineEvents parse "data: \x7b\"done\": true\x7d"
      = payloadEvents parse payloadDone :=
    lineEvents_marker parse _ _ (by decide) (by decide)
  have l2 : lineEvents parse "data: \x7b\"token\":\"X\"\x7d"
      = payloadEvents parse payloadX :=
    lineEvents_marker parse _ _ (by decide) (by decide)
  have l3 : lineEvents parse "" = ([], false) :=
    lineEvents_no_marker parse _ (by decide)
  have p1 := payloadEvents_some parse payloadDone _ (by decide) hD
  have p2 := payloadEvents_some parse payloadX _ (by decide) hX
  constructor
  · simp [chunksEvents, hsD, hsX, linesEvents, l1, l2, l3, p1, p2, recEvents]
  · simp [chunksEvents, hsDX, linesEvents, l1, l2, p1, recEvents]

/-- Witness for C2 at a concrete parse function agreeing with `JSON.parse`
on the involved payloads. -/
theorem C2_witness :
    chunksEvents parseStub [chunkDone, chunkX]
      = [SEvent.done, SEvent.token "X"]
    ∧ chunksEvents parseStub [chunkDoneThenX] = [SEvent.done] :=
  C2_done_only_breaks_current_chunk parseStub (by decide) (by decide)

/-! ## C5: response aggregation -/

theorem foldl_aggStep_fullResponse (evs : List SEvent) :
    ∀ a : Agg, (evs.foldl aggStep a).fullResponse
      = a.fullResponse ++ tokensText evs := by
  induction evs with
  | nil => intro a; simp [tokensText]
  | cons e es ih =>
    intro a
    cases e with
    | token t => simp [aggStep, tokensText, ih, String.append_assoc]
    | images us => simp [aggStep, tokensText, ih]
    | done => simp [aggStep, tokensText, ih]

theorem foldl_aggStep_imageUrls (evs : List SEvent) :
    ∀ a : Agg, (evs.foldl aggStep a).imageUrls
      = (lastImages evs).getD a.imageUrls := by
  induction evs with
  | nil => intro a; simp [lastImages]
  | cons e es ih =>
    intro a
    rw [List.foldl_cons, ih]
    cases hl : lastImages es with
    | some us => simp [lastImages, hl]
    | none => cases e <;> simp [lastImages, hl, aggStep]

/-- C5: the committed entry carries as text the concatenation, in emission
order, of the texts of all Token events — substituting the fixed placeholder
when no token text arrived — and as image list the last Images event's list
wholesale, an empty or absent list committed as `none` (no images attached);
the example stream Token("Hi"), Token(" there"), Done commits "Hi there". -/
theorem C5_commit_is_token_concat_and_last_images (evs : List SEvent) :
    (runAgg evs).fullResponse = tokensText evs
    ∧ commitEntry (runAgg evs)
      = Entry.output
          (if tokensText evs = "" then noResponseText else tokensText evs)
          (match lastImages evs with
           | some us => if us.length > 0 then some us else none
           | none => none)
    ∧ (runAgg [SEvent.token "Hi", SEvent.token " there", SEvent.done]).fullResponse
      = "Hi there" := by
  have ht : (runAgg evs).fullResponse = tokensText evs := by
    unfold runAgg
    rw [foldl_aggStep_fullResponse]
    exact String.empty_append _
  have hi : (runAgg evs).imageUrls = (lastImages evs).getD [] := by
    unfold runAgg
    rw [foldl_aggStep_imageUrls]
  refine ⟨ht, ?_, by decide⟩
  unfold commitEntry finalText finalImages
  rw [ht, hi]
  cases lastImages evs with
  | none => simp
  | some us => simp

/-! ## C3 and C4: submission outcomes -/

theorem updateFirstTyping_append (u t : String) (l r : List Entry)
    (h : ∀ e ∈ l, isTyping e = false) :
    updateFirstTyping u (l ++ Entry.typing t :: r) = l ++ Entry.typing u :: r := by
  induction l with
  | nil => simp [updateFirstTyping, isTyping]
  | cons x xs ih =>
    have hx : isTyping x = false := h x (by simp)
    simp only [List.cons_append, updateFirstTyping, hx]
    simp [ih (fun e he => h e (by simp [he]))]

theorem removeFirstTyping_append (t : String) (l r : List Entry)
    (h : ∀ e ∈ l, isTyping e = false) :
    removeFirstTyping (l ++ Entry.typing t :: r) = l ++ r := by
  induction l with
  | nil => simp [removeFirstTyping, isTyping]
  | cons x xs ih =>
    have hx : isTyping x = false := h x (by simp)
    simp only [List.cons_append, removeFirstTyping, hx]
    simp [ih (fun e he => h e (by simp [he]))]

/-- C3: after any terminal outcome of a dispatched submission — successful
stream completion, non-success HTTP status, network failure, or a failure
while reading the stream — the `finally` block has released the Submission
Lock, re-enabled the input surface and refocused the input. -/
theorem C3_lock_released_on_every_outcome (parse : String → Option JRec)
    (s : TermState) (o : ChatOutcome)
    (h1 : ¬ jsTrim s.inputValue = "") (h2 : s.isProcessing = false) :
    (handleInput parse s o).isProcessing = false
    ∧ (handleInput parse s o).disabled = false
    ∧ (handleInput parse s o).focused = true := by
  unfold handleInput
  rw [if_neg (by simp [h1, h2])]
  cases o with
  | netError m => exact ⟨rfl, rfl, rfl⟩
  | httpError st => exact ⟨rfl, rfl, rfl⟩
  | stream chunks readErr => cases readErr <;> exact ⟨rfl, rfl, rfl⟩

/-- Witness for C3: a concrete submission rejected with status 500. -/
theorem C3_witness :
    (handleInput parseStub { initState with inputValue := "hello" }
        (ChatOutcome.httpError 500)).isProcessing = false
    ∧ (handleInput parseStub { initState with inputValue := "hello" }
        (ChatOutcome.httpError 500)).disabled = false
    ∧ (handleInput parseStub { initState with inputValue := "hello" }
        (ChatOutcome.httpError 500)).focused = true :=
  C3_lock_released_on_every_outcome parseStub _ _ (by decide) rfl

/-- C4: on any failing outcome — network failure, non-success status, or a
failure during streaming — the in-progress typing entry is removed and the
display log gains exactly the user entry and one error entry carrying the
failure description; exactly one request was dispatched (no retry). -/
theorem C4_failure_removes_typing_adds_one_error (parse : String → Option JRec)
    (s : TermState) (o : ChatOutcome) (m : String)
    (h1 : ¬ jsTrim s.inputValue = "") (h2 : s.isProcessing = false)
    (hf : failDesc o = some m)
    (hlog : ∀ e ∈ s.log, isTyping e = false) :
    (handleInput parse s o).log
      = s.log ++ [Entry.user (jsTrim s.inputValue),
                  Entry.error (errLinePrefix ++ m)]
    ∧ (handleInput parse s o).fetchCount = s.fetchCount + 1 := by
  have hl : ∀ e ∈ s.log ++ [Entry.user (jsTrim s.inputValue)],
      isTyping e = false := by
    intro e he
    rcases List.mem_append.mp he with h | h
    · exact hlog e h
    · simp at h; subst h; rfl
  unfold handleInput
  rw [if_neg (by simp [h1, h2])]
  cases o with
  | netError m0 =>
    simp only [failDesc, Option.some.injEq] at hf
    subst hf
    refine ⟨?_, rfl⟩
    show removeFirstTyping ((s.log ++ [Entry.user (jsTrim s.inputValue)])
        ++ [Entry.typing ""]) ++ [Entry.error (errLinePrefix ++ m0)] = _
    rw [removeFirstTyping_append ""
      (s.log ++ [Entry.user (jsTrim s.inputValue)]) [] hl]
    simp
  | httpError st =>
    simp only [failDesc, Option.some.injEq] at hf
    subst hf
    refine ⟨?_, rfl⟩
    show removeFirstTyping ((s.log ++ [Entry.user (jsTrim s.inputValue)])
        ++ [Entry.typing ""]) ++ [Entry.error (errLinePrefix ++ _)] = _
    rw [removeFirstTyping_append ""
      (s.log ++ [Entry.user (jsTrim s.inputValue)]) [] hl]
    simp
  | stream chunks readErr =>
    cases readErr with
    | none => simp [failDesc] at hf
    | some m0 =>
      simp only [failDesc, Option.some.injEq] at hf
      subst hf
      refine ⟨?_, rfl⟩
      show removeFirstTyping (updateFirstTyping
            (runAgg (chunksEvents parse chunks)).fullResponse
          ((s.log ++ [Entry.user (jsTrim s.inputValue)]) ++ [Entry.typing ""]))
          ++ [Entry.error (errLinePrefix ++ m0)] = _
      rw [updateFirstTyping_append
          (runAgg (chunksEvents parse chunks)).fullResponse ""
          (s.log ++ [Entry.user (jsTrim s.inputValue)]) [] hl,
        removeFirstTyping_append
          (runAgg (chunksEvents parse chunks)).fullResponse
          (s.log ++ [Entry.user (jsTrim s.inputValue)]) [] hl]
      simp

/-- Witness for C4: a concrete submission failing with a network error. -/
theorem C4_witness :
    (handleInput parseStub { initState with inputValue := "hello" }
        (ChatOutcome.netError "Failed to fetch")).log
      = [Entry.user "hello",
         Entry.error (errLinePrefix ++ "Failed to fetch")]
    ∧ (handleInput parseStub { initState with inputValue := "hello" }
        (ChatOutcome.netError "Failed to fetch")).fetchCount = 1 := by
  have h := C4_failure_removes_typing_adds_one_error parseStub
    { initState with inputValue := "hello" }
    (ChatOutcome.netError "Failed to fetch") "Failed to fetch"
    (by decide) rfl rfl (by simp [initState])
  simpa using h

/-! ## C7, C8, C10: autocomplete selection machine -/

theorem handleInput_ac_frame (parse : String → Option JRec) (s : TermState)
    (o : ChatOutcome) :
    (handleInput parse s o).acShown = s.acShown
    ∧ (handleInput parse s o).acItems = s.acItems
    ∧ (handleInput parse s o).selectedIndex = s.selectedIndex := by
  unfold handleInput
  by_cases hg : jsTrim s.inputValue = "" ∨ s.isProcessing = true
  · rw [if_pos hg]; exact ⟨rfl, rfl, rfl⟩
  · rw [if_neg hg]
    cases o with
    | netError m => exact ⟨rfl, rfl, rfl⟩
    | httpError st => exact ⟨rfl, rfl, rfl⟩
    | stream chunks readErr => cases readErr <;> exact ⟨rfl, rfl, rfl⟩

theorem handleInput_dispatch (parse : String → Option JRec) (s : TermState)
    (o : ChatOutcome)
    (h1 : ¬ jsTrim s.inputValue = "") (h2 : s.isProcessing = false) :
    (handleInput parse s o).lastRequest
      = some (jsTrim s.inputValue, sessionField s.sessionId)
    ∧ (handleInput parse s o).fetchCount = s.fetchCount + 1 := by
  unfold handleInput
  rw [if_neg (by simp [h1, h2])]
  cases o with
  | netError m => exact ⟨rfl, rfl⟩
  | httpError st => exact ⟨rfl, rfl⟩
  | stream chunks readErr => cases readErr <;> exact ⟨rfl, rfl⟩

/-- C7: each Autocomplete Controller operation — showing suggestions, hiding,
navigating, accepting — preserves the invariant that `selectedIndex` lies in
`[-1, items.length - 1]`, and any operation that moves the list from shown to
hidden leaves `selectedIndex` at -1. -/
theorem C7_selection_invariant_preserved (parse : String → Option JRec)
    (s : TermState) (op : ACOp) (h : acInvariant s) :
    acInvariant (applyACOp parse s op)
    ∧ (s.acShown = true → (applyACOp parse s op).acShown = false →
        (applyACOp parse s op).selectedIndex = -1) := by
  obtain ⟨hlo, hhi⟩ := h
  cases op with
  | showItems artworks =>
    refine ⟨⟨by simp [applyACOp, showAutocomplete], ?_⟩, ?_⟩
    · simp only [applyACOp, showAutocomplete]
      omega
    · intro _ hcl
      simp [applyACOp, showAutocomplete] at hcl
  | hide =>
    refine ⟨⟨by simp [applyACOp, hideAutocomplete], ?_⟩, fun _ _ => rfl⟩
    simp only [applyACOp, hideAutocomplete]
    omega
  | navigate d =>
    simp only [applyACOp, navigateAutocomplete]
    by_cases hlen : s.acItems.length = 0
    · rw [if_pos hlen]
      exact ⟨⟨hlo, hhi⟩, fun ht hf => absurd (ht ▸ hf) (by simp)⟩
    · rw [if_neg hlen]
      refine ⟨⟨?_, ?_⟩, fun ht hf => absurd (ht ▸ hf) (by simp)⟩
      · simp only []
        split <;> [omega; (split <;> omega)]
      · simp only []
        split <;> [omega; (split <;> omega)]
  | accept o =>
    simp only [applyACOp, enterKey]
    by_cases hp : s.isProcessing = true
    · rw [if_pos hp]
      exact ⟨⟨hlo, hhi⟩, fun ht hf => absurd (ht ▸ hf) (by simp)⟩
    · rw [if_neg hp]
      by_cases hsh : s.acShown = true
      · rw [if_pos hsh]
        cases hit : acItemAt s s.selectedIndex with
        | none =>
          exact ⟨⟨hlo, hhi⟩, fun ht hf => absurd (ht ▸ hf) (by simp)⟩
        | some name =>
          obtain ⟨fsh, fit, fsel⟩ := handleInput_ac_frame parse
            (hideAutocomplete { s with inputValue := name }) o
          refine ⟨⟨?_, ?_⟩, fun _ _ => ?_⟩
          · rw [fsel]; simp [hideAutocomplete]
          · rw [fsel, fit]
            simp only [hideAutocomplete]
            omega
          · rw [fsel]
            rfl
      · rw [if_neg hsh]
        obtain ⟨fsh, fit, fsel⟩ := handleInput_ac_frame parse s o
        refine ⟨⟨?_, ?_⟩, fun ht _ => absurd ht hsh⟩
        · rw [fsel]; exact hlo
        · rw [fsel, fit]; exact hhi

/-- Witness for C7: navigating down from the freshly constructed state. -/
theorem C7_witness :
    acInvariant (applyACOp parseStub initState (ACOp.navigate 1)) :=
  (C7_selection_invariant_preserved parseStub initState (ACOp.navigate 1)
    (by constructor <;> decide)).1

/-- C10: with the suggestion list shown and `selectedIndex = -1`,
`items[this.selectedIndex]` is undefined, so the Enter keypress does nothing
at all: the entire state — log, input text, autocomplete state, dispatched
requests — is unchanged. -/
theorem C10_enter_with_no_selection_is_noop (parse : String → Option JRec)
    (s : TermState) (o : ChatOutcome)
    (hsh : s.acShown = true) (hsel : s.selectedIndex = -1) :
    enterKey parse s o = s := by
  unfold enterKey
  by_cases hp : s.isProcessing = true
  · rw [if_pos hp]
  · rw [if_neg hp, if_pos hsh]
    have : acItemAt s s.selectedIndex = none := by
      unfold acItemAt
      rw [hsel, if_pos (by decide)]
    rw [this]

/-- Witness for C10: Enter on a concrete shown-list state with no selection. -/
theorem C10_witness :
    enterKey parseStub { initState with acShown := true }
      (ChatOutcome.httpError 500) = { initState with acShown := true } :=
  C10_enter_with_no_selection_is_noop parseStub _ _ rfl rfl

/-! ## C8: accepting a suggestion -/

/-- C8 counterexample: accepting the selected suggestion `"Hi "` (a name with
a trailing space) dispatches a submission whose message is the TRIMMED string
`"Hi"`, not the selected name — because `handleInput` reads
`this.userInput.value.trim()` — so the dispatched message is not exactly the
selected name. -/
theorem C8_counterexample :
    (enterKey (fun _ => none)
        { initState with acShown := true, acItems := ["Hi "], selectedIndex := 0 }
        (ChatOutcome.httpError 500)).lastRequest
      = some ("Hi", JsonField.nullv)
    ∧ acItemAt
        { initState with acShown := true, acItems := ["Hi "], selectedIndex := 0 }
        0 = some "Hi "
    ∧ ¬ ("Hi" : String) = "Hi " := by
  refine ⟨by decide, by decide, by decide⟩

/-- C8 (amended): accepting a suggestion (Enter while the list is shown with a
valid `selectedIndex`) copies the selected name into the input, forces the
list closed with `selectedIndex = -1`, and runs `handleInput`; when the
trimmed name is non-empty the dispatched submission's message is the TRIMMED
selected name (equal to the name whenever it has no surrounding whitespace);
a whitespace-only name triggers no submission at all. -/
theorem C8_accept_submits_trimmed_name (parse : String → Option JRec)
    (s : TermState) (o : ChatOutcome) (name : String)
    (hp : s.isProcessing = false) (hsh : s.acShown = true)
    (hit : acItemAt s s.selectedIndex = some name) :
    enterKey parse s o
      = handleInput parse (hideAutocomplete { s with inputValue := name }) o
    ∧ (hideAutocomplete { s with inputValue := name }).inputValue = name
    ∧ (hideAutocomplete { s with inputValue := name }).acShown = false
    ∧ (hideAutocomplete { s with inputValue := name }).selectedIndex = -1
    ∧ (enterKey parse s o).acShown = false
    ∧ (enterKey parse s o).selectedIndex = -1
    ∧ (¬ jsTrim name = "" →
        (enterKey parse s o).lastRequest
          = some (jsTrim name, sessionField s.sessionId)
        ∧ (enterKey parse s o).fetchCount = s.fetchCount + 1)
    ∧ (jsTrim name = "" →
        enterKey parse s o = hideAutocomplete { s with inputValue := name }) := by
  have he : enterKey parse s o
      = handleInput parse (hideAutocomplete { s with inputValue := name }) o := by
    unfold enterKey
    rw [if_neg (by simp [hp]), if_pos hsh, hit]
  obtain ⟨fsh, fit, fsel⟩ := handleInput_ac_frame parse
    (hideAutocomplete { s with inputValue := name }) o
  refine ⟨he, rfl, rfl, rfl, by rw [he, fsh]; rfl, by rw [he, fsel]; rfl, ?_, ?_⟩
  · intro hne
    have hd := handleInput_dispatch parse
      (hideAutocomplete { s with inputValue := name }) o
      (show ¬ jsTrim
          (hideAutocomplete { s with inputValue := name }).inputValue = ""
        from hne)
      (show (hideAutocomplete { s with inputValue := name }).isProcessing
          = false from hp)
    exact ⟨by rw [he]; exact hd.1, by rw [he]; exact hd.2⟩
  · intro hz
    rw [he]
    unfold handleInput
    rw [if_pos (Or.inl (show jsTrim
      (hideAutocomplete { s with inputValue := name }).inputValue = "" from hz))]

/-- Witness for C8 at a concrete accepted name without surrounding
whitespace, where the dispatched message equals the name. -/
theorem C8_witness :
    (enterKey parseStub
        { initState with acShown := true, acItems := ["Mona Lisa"], selectedIndex := 0 }
        (ChatOutcome.httpError 500)).lastRequest
      = some ("Mona Lisa", JsonField.nullv)
    ∧ (enterKey parseStub
        { initState with acShown := true, acItems := ["Mona Lisa"], selectedIndex := 0 }
        (ChatOutcome.httpError 500)).acShown = false := by
  have h := C8_accept_submits_trimmed_name parseStub
    { initState with acShown := true, acItems := ["Mona Lisa"], selectedIndex := 0 }
    (ChatOutcome.httpError 500) "Mona Lisa" rfl rfl (by decide)
  exact ⟨by simpa using (h.2.2.2.2.2.2.1 (by decide)).1, h.2.2.2.2.1⟩

/-! ## C9: session creation failure -/

/-- C9 counterexample: a create-session response with a NON-SUCCESS status
whose body parses as JSON without a `session_id` field is not surfaced as an
error (the catch block does not run, nothing is logged) and leaves the
Session Handle `undefined`, not `null` — the code never consults
`response.ok`. -/
theorem C9_counterexample :
    (createSession initState (SessionOutcome.response false (some none))).2
      = false
    ∧ (createSession initState
        (SessionOutcome.response false (some none))).1.sessionId
      = SessVal.undef
    ∧ ¬ SessVal.undef = SessVal.null := by
  refine ⟨rfl, rfl, by decide⟩

/-- C9 (amended): a create-session request that THROWS — network failure, or
a body that fails to parse — is surfaced as a generic logged error and the
client proceeds with its previous (initially null) Session Handle; chat
requests are still dispatched, carrying `session_id: null` for the null
handle.  A non-success status whose body parses is NOT surfaced: the handle
is silently set to the body's `session_id` field, `undefined` when the field
is absent (in which case the chat request body omits the `session_id` key). -/
theorem C9_create_session_failure_modes :
    (∀ s, createSession s SessionOutcome.netError = (s, true))
    ∧ (∀ s ok, createSession s (SessionOutcome.response ok none) = (s, true))
    ∧ (∀ s ok v, createSession s (SessionOutcome.response ok (some v))
        = ({ s with sessionId :=
              match v with
              | none => SessVal.undef
              | some t => SessVal.str t }, false))
    ∧ sessionField SessVal.null = JsonField.nullv
    ∧ sessionField SessVal.undef = JsonField.absent
    ∧ (∀ parse s o, ¬ jsTrim s.inputValue = "" → s.isProcessing = false →
        (handleInput parse s o).lastRequest
          = some (jsTrim s.inputValue, sessionField s.sessionId)) := by
  refine ⟨fun s => rfl, fun s ok => rfl, fun s ok v => ?_, rfl, rfl,
    fun parse s o h1 h2 => (handleInput_dispatch parse s o h1 h2).1⟩
  cases v <;> rfl

/-- Witness for C9: the network-failure case keeps the null handle and logs;
a chat request from the null-handle state carries `session_id: null`. -/
theorem C9_witness :
    createSession initState SessionOutcome.netError = (initState, true)
    ∧ (handleInput parseStub { initState with inputValue := "hi" }
        (ChatOutcome.httpError 500)).lastRequest
      = some ("hi", JsonField.nullv) := by
  refine ⟨C9_create_session_failure_modes.1 initState, ?_⟩
  have h := C9_create_session_failure_modes.2.2.2.2.2 parseStub
    { initState with inputValue := "hi" } (ChatOutcome.httpError 500)
    (by decide) rfl
  simpa using h

/-! ## C6: debounced autocomplete fetches -/

theorem string_ne_empty_length (u : String) (h : ¬ u = "") :
    ¬ u.length < 1 := by
  intro hlt
  apply h
  cases u with
  | mk l =>
    cases l with
    | nil => rfl
    | cons c cs => simp [String.length] at hlt

theorem acTimerInv_timerBody (t : TermState) (r : FetchRes)
    (h : acTimerInv t) : acTimerInv (timerBody t r) := by
  cases r with
  | ok artworks =>
    show acTimerInv
      (if artworks.length > 0 then showAutocomplete artworks t
       else hideAutocomplete t)
    by_cases hl : artworks.length > 0
    · rw [if_pos hl]; exact h
    · rw [if_neg hl]; exact h
  | fail => exact h

theorem acTimerInv_handleAutocomplete (t : TermState) (h : acTimerInv t) :
    acTimerInv (handleAutocomplete t) := by
  obtain ⟨hd, hsch, hcan, hfir, hcov, hsto⟩ := h
  unfold handleAutocomplete
  by_cases hq : (jsTrim t.inputValue).length < 1
  · rw [if_pos hq]
    exact ⟨hd, hsch, hcan, hfir, hcov, hsto⟩
  · rw [if_neg hq]
    cases hT : t.autocompleteTimeout with
    | none =>
      refine ⟨?_, ?_, ?_, ?_, ?_, ?_⟩
      · intro e he
        rcases List.mem_append.mp he with h | h
        · exact hd e h
        · simp at h; subst h; rfl
      · intro e he
        rcases List.mem_append.mp he with h | h
        · have := hsch e h
          show e.1 < t.nextTimerId + 1
          omega
        · simp at h; subst h
          show t.nextTimerId < t.nextTimerId + 1
          omega
      · intro i hi
        have := hcan i hi
        show i < t.nextTimerId + 1
        omega
      · intro i hi
        have := hfir i hi
        show i < t.nextTimerId + 1
        omega
      · intro e he
        rcases List.mem_append.mp he with h | h
        · rcases hcov e h with h1 | h1 | h1
          · exact Or.inl h1
          · exact Or.inr (Or.inl h1)
          · rw [hT] at h1; cases h1
        · simp at h; subst h
          exact Or.inr (Or.inr rfl)
      · intro i hi
        have hi2 : t.nextTimerId = i := Option.some.inj hi
        subst hi2
        refine ⟨show t.nextTimerId < t.nextTimerId + 1 by omega, ?_⟩
        show (t.scheduled
            ++ [(t.nextTimerId, jsTrim t.inputValue, debounceDelayMs)]).getLast?.map
          (fun e => e.1) = some t.nextTimerId
        rw [List.getLast?_concat]
        rfl
    | some i0 =>
      refine ⟨?_, ?_, ?_, ?_, ?_, ?_⟩
      · intro e he
        rcases List.mem_append.mp he with h | h
        · exact hd e h
        · simp at h; subst h; rfl
      · intro e he
        rcases List.mem_append.mp he with h | h
        · have := hsch e h
          show e.1 < t.nextTimerId + 1
          omega
        · simp at h; subst h
          show t.nextTimerId < t.nextTimerId + 1
          omega
      · intro i hi
        rcases List.mem_cons.mp hi with rfl | hi
        · have := (hsto i hT).1
          show i < t.nextTimerId + 1
          omega
        · have := hcan i hi
          show i < t.nextTimerId + 1
          omega
      · intro i hi
        have := hfir i hi
        show i < t.nextTimerId + 1
        omega
      · intro e he
        rcases List.mem_append.mp he with h | h
        · rcases hcov e h with h1 | h1 | h1
          · exact Or.inl (List.mem_cons_of_mem _ h1)
          · exact Or.inr (Or.inl h1)
          · rw [hT] at h1
            have h2 : i0 = e.1 := Option.some.inj h1
            exact Or.inl (h2 ▸ List.mem_cons_self i0 t.cancelled)
        · simp at h; subst h
          exact Or.inr (Or.inr rfl)
      · intro i hi
        have hi2 : t.nextTimerId = i := Option.some.inj hi
        subst hi2
        refine ⟨show t.nextTimerId < t.nextTimerId + 1 by omega, ?_⟩
        show (t.scheduled
            ++ [(t.nextTimerId, jsTrim t.inputValue, debounceDelayMs)]).getLast?.map
          (fun e => e.1) = some t.nextTimerId
        rw [List.getLast?_concat]
        rfl

theorem acTimerInv_step (s : TermState) (e : ACEvent) (h : acTimerInv s) :
    acTimerInv (stepAC s e) := by
  cases e with
  | inputChanged v =>
    exact acTimerInv_handleAutocomplete { s with inputValue := v } h
  | fire id r =>
    show acTimerInv
      (if fireable s id then timerBody { s with fired := id :: s.fired } r
       else s)
    by_cases hf : fireable s id = true
    · rw [if_pos hf]
      obtain ⟨hd, hsch, hcan, hfir, hcov, hsto⟩ := h
      simp only [fireable, Bool.and_eq_true, List.any_eq_true, beq_iff_eq,
        Bool.not_eq_true'] at hf
      obtain ⟨⟨⟨e0, he0, hei⟩, _⟩, _⟩ := hf
      have hid : id < s.nextTimerId := hei ▸ hsch e0 he0
      refine acTimerInv_timerBody _ r ⟨hd, hsch, hcan, ?_, ?_, hsto⟩
      · intro i hi
        rcases List.mem_cons.mp hi with rfl | hi
        · exact hid
        · exact hfir i hi
      · intro e' he'
        rcases hcov e' he' with h1 | h1 | h1
        · exact Or.inl h1
        · exact Or.inr (Or.inl (List.mem_cons_of_mem _ h1))
        · exact Or.inr (Or.inr h1)
    · rw [if_neg hf]
      exact h

theorem acTimerInv_run (evs : List ACEvent) :
    ∀ s : TermState, acTimerInv s → acTimerInv (runAC s evs) := by
  induction evs with
  | nil => intro s h; exact h
  | cons e es ih => intro s h; exact ih _ (acTimerInv_step s e h)

theorem acTimerInv_init : acTimerInv initState := by
  refine ⟨?_, ?_, ?_, ?_, ?_, ?_⟩ <;> intro x hx <;> simp [initState] at hx

/-- C6 counterexample: after typing `"a"` and then clearing the input, the
last input-changed event has an empty trimmed query, so the claim requires
the list to stay closed until a later non-empty input's fetch resolves, and
requires superseded timers never to fire.  But the empty-query branch of
`handleAutocomplete` returns WITHOUT cancelling the pending timer: timer 0
(scheduled for the query `"a"`) is still fireable, and when its fetch
resolves with a non-empty artwork list the suggestion list reopens although
no later non-empty input occurred. -/
theorem C6_counterexample :
    (runAC initState
        [ACEvent.inputChanged "a", ACEvent.inputChanged ""]).acShown = false
    ∧ fireable (runAC initState
        [ACEvent.inputChanged "a", ACEvent.inputChanged ""]) 0 = true
    ∧ (runAC initState
        [ACEvent.inputChanged "a", ACEvent.inputChanged "",
         ACEvent.fire 0 (FetchRes.ok
           [{ name := "Mona Lisa", size := none, year := some "1503" }])]).acShown
      = true := by
  refine ⟨by decide, by decide, by decide⟩

/-- C6 (amended): on input-changed with an empty trimmed query the list is
forced closed, but the pending fetch timer is NOT cancelled — it may still
fire later and reopen the list; on a non-empty trimmed query the stored
pending timer is cancelled and a new fetch is scheduled with the fixed 300 ms
debounce delay.  Consequently, in every state reachable from the constructor
state, at most one timer is still fireable, namely the most recently
scheduled one: a timer superseded by a LATER NON-EMPTY input never fires. -/
theorem C6_debounce_latest_timer_wins :
    (∀ evs, acTimerInv (runAC initState evs))
    ∧ (∀ t i, acTimerInv t → fireable t i = true →
        t.autocompleteTimeout = some i
        ∧ t.scheduled.getLast?.map (fun e => e.1) = some i)
    ∧ (∀ t v, jsTrim v = "" →
        stepAC t (ACEvent.inputChanged v)
          = hideAutocomplete { t with inputValue := v })
    ∧ (∀ t v, ¬ jsTrim v = "" →
        (stepAC t (ACEvent.inputChanged v)).scheduled
          = t.scheduled ++ [(t.nextTimerId, jsTrim v, debounceDelayMs)]
        ∧ (stepAC t (ACEvent.inputChanged v)).autocompleteTimeout
          = some t.nextTimerId
        ∧ (∀ i, t.autocompleteTimeout = some i →
            (stepAC t (ACEvent.inputChanged v)).cancelled = i :: t.cancelled))
    ∧ debounceDelayMs = 300 := by
  refine ⟨fun evs => acTimerInv_run evs initState acTimerInv_init,
    ?_, ?_, ?_, rfl⟩
  · intro t i h hf
    obtain ⟨hd, hsch, hcan, hfir, hcov, hsto⟩ := h
    simp only [fireable, Bool.and_eq_true, List.any_eq_true, beq_iff_eq,
      Bool.not_eq_true'] at hf
    obtain ⟨⟨⟨e0, he0, hei⟩, hnc⟩, hnf⟩ := hf
    rcases hcov e0 he0 with h1 | h1 | h1
    · rw [hei] at h1
      simp at hnc
      exact absurd h1 hnc
    · rw [hei] at h1
      simp at hnf
      exact absurd h1 hnf
    · rw [hei] at h1
      exact ⟨h1, (hsto i h1).2⟩
  · intro t v h
    have hc : (jsTrim v).length < 1 := by
      rw [h]; decide
    show handleAutocomplete { t with inputValue := v } = _
    unfold handleAutocomplete
    rw [if_pos hc]
  · intro t v h
    have hc := string_ne_empty_length (jsTrim v) h
    refine ⟨?_, ?_, ?_⟩
    · show (handleAutocomplete { t with inputValue := v }).scheduled = _
      unfold handleAutocomplete
      rw [if_neg hc]
      cases hT : t.autocompleteTimeout <;> simp [hT]
    · show (handleAutocomplete { t with inputValue := v }).autocompleteTimeout = _
      unfold handleAutocomplete
      rw [if_neg hc]
      cases hT : t.autocompleteTimeout <;> simp [hT]
    · intro i hi
      show (handleAutocomplete { t with inputValue := v }).cancelled = _
      unfold handleAutocomplete
      rw [if_neg hc]
      simp [hi]

/-- Witness for C6: the invariant holds after a concrete trace, the empty
input forces the list closed without touching the timer, and the delay
constant is 300 ms. -/
theorem C6_witness :
    acTimerInv (runAC initState [ACEvent.inputChanged "a"])
    ∧ stepAC initState (ACEvent.inputChanged " ")
      = hideAutocomplete { initState with inputValue := " " }
    ∧ debounceDelayMs = 300 :=
  ⟨C6_debounce_latest_timer_wins.1 [ACEvent.inputChanged "a"],
   C6_debounce_latest_timer_wins.2.2.1 initState " " (by decide),
   C6_debounce_latest_timer_wins.2.2.2.2⟩

end CuratorAI
